import Mathlib

/-!
Verification of the chord-id MIDI/chord/audio core.

This file gives a shallow embedding of the repository's core components:
  * the instrument catalog (`src/audio/instruments.ts`),
  * the audio voice manager (`src/hooks/useAudio.ts`) as an explicit state
    machine with asynchronous instrument loads modelled as pending-load
    tokens resolved by later events,
  * the MIDI active-note registry (`useMidi`),
  * chord detection (`src/utils/chordDetection.ts`), parameterized over the
    external chord template matcher, together with a matcher model built
    from the specification (the `tonal` library is not part of the repo).

Numeric audio parameters (velocities, gains, decibels) are modelled over ℚ;
the JavaScript numbers involved in the claims are exact in ℚ.  `-Infinity`
decibels is modelled as `none : Option ℚ`.
-/

/-! ## Instrument catalog (src/audio/instruments.ts) -/

structure Instrument where
  id : String
  name : String
  type : String  -- "sampled" | "synth"
  icon : String
deriving DecidableEq

def instruments : List Instrument := [
  { id := "grand-piano", name := "Grand Piano", type := "sampled", icon := "🎹" },
  { id := "electric-piano", name := "Electric Piano", type := "sampled", icon := "🎸" },
  { id := "strings", name := "Strings", type := "sampled", icon := "🎻" },
  { id := "organ", name := "Organ", type := "synth", icon := "🎛️" },
  { id := "synth-pad", name := "Synth Pad", type := "synth", icon := "🌊" },
  { id := "synth-lead", name := "Synth Lead", type := "synth", icon := "⚡" }]

-- `instruments.find(i => i.id === id) || instruments[0]`
def getInstrument (id : String) : Instrument :=
  match instruments.find? (fun i => i.id == id) with
  | some i => i
  | none => instruments.headD { id := "", name := "", type := "", icon := "" }

def DEFAULT_INSTRUMENT_ID : String := "grand-piano"

def DEFAULT_VOLUME : ℚ := 80

/-! ## Backends and voices (useAudio.ts)

A `Backend` is the active audio instrument: either a `smplr` sampled
instrument (identified by which library object `loadSampledInstrument`
constructed) or a `Tone.PolySynth` with the oscillator/envelope settings
`createSynth` gives it and its current volume in dB (`none` = -Infinity).

A `Voice` records one backend `start`/`triggerAttack` call: the note, whether
it is still sounding, and the exact velocity datum handed to the backend
(`sentGain` on the synthesized path, `sentVelocity` on the sampled path).
Sampled voices are releasable only through the stop handle the `start` call
returned; the manager stores handles (modelled as voice ids) in its
note-keyed map.  Synthesized voices are released frequency-addressed, which
the model keys by MIDI note (MIDI note ↦ frequency is injective).
-/

inductive Backend where
  | sampled (impl : String)
  | synth (osc : String) (att dec sus rel : ℚ) (volDb : Option ℚ)
deriving DecidableEq

structure Voice where
  id : ℕ
  note : ℕ
  live : Bool
  sentGain : Option ℚ
  sentVelocity : Option ℤ
deriving DecidableEq

/-- JavaScript `Math.round` (round half up). -/
def jsRound (q : ℚ) : ℤ := ⌊q + 1/2⌋

/-- The note ↦ stop-handle map `activeNotesRef` (a JS `Map`): association list
with `set` overwriting in place and inserting at the end. -/
def mapSet (m : List (ℕ × Option ℕ)) (k : ℕ) (v : Option ℕ) : List (ℕ × Option ℕ) :=
  if m.any (fun p => p.1 == k) then m.map (fun p => if p.1 == k then (k, v) else p)
  else m ++ [(k, v)]

def mapGet (m : List (ℕ × Option ℕ)) (k : ℕ) : Option (Option ℕ) :=
  (m.find? (fun p => p.1 == k)).map (fun p => p.2)

def mapDel (m : List (ℕ × Option ℕ)) (k : ℕ) : List (ℕ × Option ℕ) :=
  m.filter (fun p => !(p.1 == k))

/-- State of the `useAudio` hook.  In-flight `setInstrument` loads are the
`pendingLoads` list: the synchronous prefix of `setInstrument` appends a
token, and the load's continuation runs when a later `resolveLoad`/
`rejectLoad` event fires for that token (the single-threaded event loop
runs continuations in resolution order). -/
structure AudioState where
  isEnabled : Bool
  isLoading : Bool
  error : Option String
  currentInstrumentId : String
  volume : ℚ
  hasContext : Bool
  instrument : Option Backend
  activeNotes : List (ℕ × Option ℕ)
  voices : List Voice
  nextVoice : ℕ
  pendingLoads : List (ℕ × String)
  nextToken : ℕ
deriving DecidableEq

def initState : AudioState :=
  { isEnabled := false, isLoading := false, error := none,
    currentInstrumentId := DEFAULT_INSTRUMENT_ID, volume := DEFAULT_VOLUME,
    hasContext := false, instrument := none, activeNotes := [],
    voices := [], nextVoice := 0, pendingLoads := [], nextToken := 0 }

/-- `createSynth` (useAudio.ts lines 41-58): oscillator and envelope depend on
the synth kind; `synth.volume.value = -6`. -/
def createSynth (synthType : String) : Backend :=
  .synth (if synthType == "organ" then "sine"
          else if synthType == "synth-pad" then "sawtooth" else "square")
         (if synthType == "organ" then 1/100 else if synthType == "synth-pad" then 3/10 else 1/100)
         (if synthType == "organ" then 1/10 else if synthType == "synth-pad" then 1/2 else 1/5)
         (if synthType == "organ" then 1 else if synthType == "synth-pad" then 4/5 else 1/2)
         (if synthType == "organ" then 1/10 else if synthType == "synth-pad" then 3/2 else 3/10)
         (some (-6))

/-- `loadSampledInstrument` (useAudio.ts lines 61-86): the value the resolved
load produces.  The `default` switch arm constructs a `SplendidGrandPiano`,
the same object the `grand-piano` arm builds. -/
def loadSampledInstrument (instrumentId : String) : Backend :=
  if instrumentId == "grand-piano" then .sampled "SplendidGrandPiano"
  else if instrumentId == "electric-piano" then .sampled "Soundfont electric_piano_1"
  else if instrumentId == "strings" then .sampled "Soundfont string_ensemble_1"
  else .sampled "SplendidGrandPiano"

/-- `'releaseAll' in instrument` is true exactly for the `Tone.PolySynth`
backends; `releaseAll()` releases every voice of that synth.  Synthesized
voices are the ones carrying a `sentGain`. -/
def releaseAllSynth (voices : List Voice) : List Voice :=
  voices.map (fun w => if w.sentGain.isSome then { w with live := false } else w)

/-- `playNote` (useAudio.ts lines 169-190).  No backend installed: warn and
drop.  Synth backend: gain `max(0.1, velocity/127)`, handle map entry is
`null`.  Sampled backend: velocity `max(10, min(127, round(velocity)))`, the
returned stop handle is stored, overwriting any prior one. -/
def playNoteFn (s : AudioState) (midiNote : ℕ) (velocity : ℚ) : AudioState :=
  match s.instrument with
  | none => s
  | some (.synth _ _ _ _ _ _) =>
    let normalizedVelocity := max (1/10 : ℚ) (velocity / 127)
    { s with voices := s.voices ++ [⟨s.nextVoice, midiNote, true, some normalizedVelocity, none⟩],
             nextVoice := s.nextVoice + 1,
             activeNotes := mapSet s.activeNotes midiNote none }
  | some (.sampled _) =>
    let midiVelocity := max 10 (min 127 (jsRound velocity))
    { s with voices := s.voices ++ [⟨s.nextVoice, midiNote, true, none, some midiVelocity⟩],
             nextVoice := s.nextVoice + 1,
             activeNotes := mapSet s.activeNotes midiNote (some s.nextVoice) }

/-- `stopNote` (useAudio.ts lines 193-211). -/
def stopNoteFn (s : AudioState) (midiNote : ℕ) : AudioState :=
  match s.instrument with
  | none => s
  | some (.synth _ _ _ _ _ _) =>
    { s with voices := s.voices.map (fun w =>
               if w.note == midiNote && w.sentGain.isSome then { w with live := false } else w),
             activeNotes := mapDel s.activeNotes midiNote }
  | some (.sampled _) =>
    let s2 := match mapGet s.activeNotes midiNote with
      | some (some vid) =>
        { s with voices := s.voices.map (fun (w : Voice) =>
            if w.id == vid then { w with live := false } else w) }
      | _ => s
    { s2 with activeNotes := mapDel s2.activeNotes midiNote }

/-- The 0-100 → dB conversion inside `setVolume` (useAudio.ts line 220):
`newVolume === 0 ? -Infinity : -60 + (newVolume / 100) * 54`. -/
def volumeToDb (v : ℚ) : Option ℚ := if v = 0 then none else some (-60 + v / 100 * 54)

/-- `setVolume` (useAudio.ts lines 214-226): stores the 0-100 value; only a
`Tone.PolySynth` backend has its dB volume updated. -/
def setVolumeFn (s : AudioState) (v : ℚ) : AudioState :=
  let s1 := { s with volume := v }
  match s1.instrument with
  | some (.synth osc a d su r _) =>
    { s1 with instrument := some (.synth osc a d su r (volumeToDb v)) }
  | _ => s1

/-- Synchronous prefix of `setInstrument` (useAudio.ts lines 136-158): bail
out without a context; `setIsLoading(true)`; `releaseAll` when the outgoing
backend has it; then either register the pending sampled load or construct
the synth synchronously (that branch contains no `await`, so it runs to
completion: install, record the id, clear `isLoading`). -/
def setInstrumentStart (s : AudioState) (instrumentId : String) : AudioState :=
  if !s.hasContext then s
  else
    let inst := getInstrument instrumentId
    let s1 := { s with isLoading := true }
    let s2 := match s1.instrument with
      | some (.synth _ _ _ _ _ _) => { s1 with voices := releaseAllSynth s1.voices }
      | _ => s1
    if inst.type == "sampled" then
      { s2 with pendingLoads := s2.pendingLoads ++ [(s2.nextToken, instrumentId)],
                nextToken := s2.nextToken + 1 }
    else
      { s2 with instrument := some (createSynth instrumentId),
                currentInstrumentId := instrumentId, isLoading := false }

/-- Continuation of a successful sampled load (useAudio.ts lines 151-165):
install the sampler, record the id, `finally` clear `isLoading`.  The code
keeps no generation counter, so the continuation installs its result even if
a newer `setInstrument` has run meanwhile. -/
def resolveLoadFn (s : AudioState) (tok : ℕ) : AudioState :=
  match s.pendingLoads.find? (fun p => p.1 == tok) with
  | none => s
  | some p =>
    { s with pendingLoads := s.pendingLoads.filter (fun q => !(q.1 == tok)),
             instrument := some (loadSampledInstrument p.2),
             currentInstrumentId := p.2,
             isLoading := false }

/-- Continuation of a failed sampled load (useAudio.ts lines 161-165): the
`catch` only logs; `finally` clears `isLoading`. -/
def rejectLoadFn (s : AudioState) (tok : ℕ) : AudioState :=
  match s.pendingLoads.find? (fun p => p.1 == tok) with
  | none => s
  | some _ =>
    { s with pendingLoads := s.pendingLoads.filter (fun q => !(q.1 == tok)),
             isLoading := false }

/-- `enable` (useAudio.ts lines 89-133), with the outcomes of the two
fallible awaits as parameters: `toneOk` for `Tone.start()`/context creation,
`loadOk` for the default sampled-instrument load.  On load failure the inner
`catch` installs `createSynth('organ')` and records the `organ` id. -/
def enableRun (s : AudioState) (toneOk : Bool) (loadOk : Bool) : AudioState :=
  if s.isEnabled then s
  else
    let s1 := { s with isLoading := true, error := none }
    if !toneOk then { s1 with error := some "Failed to enable audio", isLoading := false }
    else
      let s2 := { s1 with hasContext := true }
      let s3 :=
        if loadOk then { s2 with instrument := some (loadSampledInstrument DEFAULT_INSTRUMENT_ID) }
        else { s2 with instrument := some (createSynth "organ"), currentInstrumentId := "organ" }
      { s3 with isEnabled := true, isLoading := false }

/-- Events on the single-threaded event loop. -/
inductive AEvent where
  | setInstr (id : String)
  | resolveLoad (tok : ℕ)
  | rejectLoad (tok : ℕ)
  | play (note : ℕ) (vel : ℚ)
  | stopN (note : ℕ)
  | setVol (v : ℚ)

def step (s : AudioState) : AEvent → AudioState
  | .setInstr id => setInstrumentStart s id
  | .resolveLoad t => resolveLoadFn s t
  | .rejectLoad t => rejectLoadFn s t
  | .play n v => playNoteFn s n v
  | .stopN n => stopNoteFn s n
  | .setVol v => setVolumeFn s v

def run (s : AudioState) (evs : List AEvent) : AudioState := evs.foldl step s

/-- The state after a successful `enable()`: context up, default grand piano
loaded. -/
def enabledState : AudioState := enableRun initState true true

/-! ## Active note registry (useMidi, handleNoteOn/handleNoteOff)

`handleNoteOn` copies the JS `Set` and calls `add`; `handleNoteOff` copies
and calls `delete`.  A JS `Set` is an insertion-ordered collection without
duplicates, modelled as a duplicate-free list. -/

def regAdd (activeNotes : List ℕ) (note : ℕ) : List ℕ :=
  if note ∈ activeNotes then activeNotes else activeNotes ++ [note]

def regRemove (activeNotes : List ℕ) (note : ℕ) : List ℕ :=
  activeNotes.filter (fun m => !(m == note))

/-! ## Helper accessors -/

/-- The dB volume of the installed backend, when it is a synthesizer. -/
def synthVolumeDb (s : AudioState) : Option (Option ℚ) :=
  match s.instrument with
  | some (.synth _ _ _ _ _ db) => some db
  | _ => none

/-! ## String helpers with JavaScript semantics

`charLower`/`strLower` model `String.prototype.toLowerCase` (the chord-type
tags are ASCII); `strIncludes` models `String.prototype.includes`. -/

def charLower (c : Char) : Char :=
  if 65 ≤ c.toNat ∧ c.toNat ≤ 90 then Char.ofNat (c.toNat + 32) else c

def strLower (s : String) : String := String.mk (s.toList.map charLower)

def lstarts : List Char → List Char → Bool
  | _, [] => true
  | [], _ :: _ => false
  | a :: as, b :: bs => a == b && lstarts as bs

def lhas : List Char → List Char → Bool
  | [], needle => needle.isEmpty
  | a :: as, needle => lstarts (a :: as) needle || lhas as needle

def strIncludes (hay needle : String) : Bool := lhas hay.toList needle.toList

/-! ## Chord quality classification (chordDetection.ts lines 94-102) -/

inductive Quality where
  | major | minor | diminished | augmented | dominant | other
deriving DecidableEq

/-- `getChordQuality`: the tag is lowercased first; note the source's
`t === 'M'` comparison happens after lowercasing and the source maps the
empty tag to `'major'`. -/
def getChordQuality (type : String) : Quality :=
  let t := strLower type
  if strIncludes t "maj" || t == "M" || t == "" then .major
  else if strIncludes t "min" || t == "m" then .minor
  else if strIncludes t "dim" then .diminished
  else if strIncludes t "aug" then .augmented
  else if strIncludes t "dom" || strIncludes t "7" then .dominant
  else .other

/-! ## Note names

`midiToNote`, `pitchClassName` and `nameToPc` model the external `tonal`
library's `Note.fromMidi` / `Note.pitchClass` and its note-name parsing on
the MIDI range 0-127 (`tonal` is a dependency, not part of this repo):
names use flat spellings with octave `midi/12 - 1`, e.g. `60 ↦ "C4"`,
`61 ↦ "Db4"`, `0 ↦ "C-1"`. -/

def pcNames : List String := ["C", "Db", "D", "Eb", "E", "F", "Gb", "G", "Ab", "A", "Bb", "B"]

def pcName (k : ℕ) : String := pcNames.getD k ""

/-- Modelled from the spec: the octave suffix of tonal's `Note.fromMidi`
names on MIDI 0-127 (octaves -1 through 9, a single character apart from
the leading minus of `-1`). -/
def octaveStr (m : ℕ) : String :=
  if m < 12 then "-1" else String.mk [Char.ofNat (48 + (m / 12 - 1))]

/-- Modelled from the spec: tonal's `Note.fromMidi` (`midiToNote` in
chordDetection.ts wraps it, defaulting to `''` on failure). -/
def midiToNote (m : ℕ) : String := pcName (m % 12) ++ octaveStr m

def isOctaveChar (c : Char) : Bool := c.isDigit || c == '-'

/-- Modelled from the spec: tonal's `Note.pitchClass` strips the octave. -/
def pitchClassName (s : String) : String :=
  String.mk (s.toList.takeWhile (fun c => !isOctaveChar c))

/-- Pitch-class number of a note name (tonal's parsing, restricted to the
names this model generates). -/
def nameToPc (s : String) : ℕ :=
  (pcNames.findIdx? (fun t => t == pitchClassName s)).getD 0

/-- JavaScript `a || b` on strings (empty string is falsy). -/
def orStr (a b : String) : String := if a == "" then b else a

/-! ## Sorting and pitch classes (chordDetection.ts) -/

def insertAsc (n : ℕ) : List ℕ → List ℕ
  | [] => [n]
  | m :: ms => if n ≤ m then n :: m :: ms else m :: insertAsc n ms

/-- `[...notes].sort((a, b) => a - b)`. -/
def sortAsc (l : List ℕ) : List ℕ := l.foldr insertAsc []

/-- `getPitchClasses` (lines 22-25): distinct pitch classes, ascending. -/
def getPitchClasses (midiNotes : List ℕ) : List ℕ :=
  sortAsc ((midiNotes.map (fun m => m % 12)).dedup)

/-! ## Chord detection (chordDetection.ts lines 28-92) -/

structure ChordInfo where
  empty : Bool
  tonic : String   -- "" plays the role of tonal's null tonic
  type : String
  quality : String -- "" plays the role of a missing quality
deriving DecidableEq

/-- The external chord template matcher's interface (spec §6):
`detect(noteNames) -> string[]` and `get(name) -> {tonic, type}`. -/
structure Matcher where
  detect : List String → List String
  get : String → ChordInfo

/-- `sortedNotes[0]` converted to a note name: the designated bass note. -/
def bassNoteOf (notes : List ℕ) : String := midiToNote ((sortAsc notes).headD 0)

/-- `notes.map(midiToNote).filter(Boolean)`: octave-aware note names. -/
def octNames (notes : List ℕ) : List String :=
  (notes.map midiToNote).filter (fun s => !(s == ""))

/-- The pitch-class-only names used by the fallback attempt (line 71). -/
def fallbackNames (notes : List ℕ) : List String :=
  (getPitchClasses notes).map (fun pc => pitchClassName (orStr (midiToNote pc) "C"))

structure DetectedChord where
  name : String
  symbol : String
  root : String
  type : String
  notes : List String
  quality : Quality
deriving DecidableEq

/-- `detectChord`, parameterized by the matcher `M` (the source calls
tonal's `Chord.detect` / `Chord.get`). -/
def detectChord (M : Matcher) (activeNotes : List ℕ) : Option DetectedChord :=
  if activeNotes.length < 2 then none
  else
    let noteNames := octNames activeNotes
    if noteNames.length < 2 then none
    else
      let bassNote := bassNoteOf activeNotes
      match M.detect noteNames with
      | chordName :: _ =>
        let chordInfo := M.get chordName
        if chordInfo.empty then none
        else some { name := chordName, symbol := chordName,
                    root := orStr chordInfo.tonic bassNote,
                    type := chordInfo.type,
                    notes := noteNames.map (fun nn => orStr (pitchClassName nn) nn),
                    quality := getChordQuality (orStr chordInfo.quality chordInfo.type) }
      | [] =>
        match M.detect (fallbackNames activeNotes) with
        | chordName :: _ =>
          let chordInfo := M.get chordName
          if chordInfo.empty then none
          else some { name := chordName, symbol := chordName,
                      root := orStr chordInfo.tonic "",
                      type := chordInfo.type,
                      notes := noteNames.map (fun nn => orStr (pitchClassName nn) nn),
                      quality := getChordQuality (orStr chordInfo.quality chordInfo.type) }
        | [] => none

/-! ## A concrete matcher modelled from the spec

Modelled from the spec: the Chord Template Matcher itself is the external
`tonal` library, absent from the repository.  Spec §2 describes it as a
"pure function mapping a pitch-class set to zero-or-more chord name
candidates", §4 as a "lookup-based matcher" over "standard
triads/sevenths/extensions"; §8 names the major/minor triad and dominant
seventh templates.  The model stores those templates as interval sets and
matches a pitch-class set when it equals a transposed template. -/

structure Template where
  sfx : String
  typeTag : String
  pcs : List ℕ

def templates : List Template := [
  { sfx := "", typeTag := "major", pcs := [0, 4, 7] },
  { sfx := "m", typeTag := "minor", pcs := [0, 3, 7] },
  { sfx := "dim", typeTag := "diminished", pcs := [0, 3, 6] },
  { sfx := "aug", typeTag := "augmented", pcs := [0, 4, 8] },
  { sfx := "7", typeTag := "dominant seventh", pcs := [0, 4, 7, 10] },
  { sfx := "maj7", typeTag := "major seventh", pcs := [0, 4, 7, 11] },
  { sfx := "m7", typeTag := "minor seventh", pcs := [0, 3, 7, 10] }]

def mkChordName (r : ℕ) (t : Template) : String := pcName r ++ t.sfx

/-- The (sorted, distinct) pitch-class set a name list denotes. -/
def pcsOfNames (names : List String) : List ℕ := sortAsc ((names.map nameToPc).dedup)

def transposedPcs (r : ℕ) (t : Template) : List ℕ :=
  sortAsc ((t.pcs.map (fun i => (i + r) % 12)).dedup)

/-- Modelled from the spec: the matcher's `detect`. -/
def chordDetect (names : List String) : List String :=
  (List.range 12).flatMap (fun r => templates.filterMap (fun t =>
    if pcsOfNames names = transposedPcs r t then some (mkChordName r t) else none))

/-- Modelled from the spec: the matcher's `get`. -/
def chordGet (name : String) : ChordInfo :=
  match (List.range 12).findSome? (fun r => templates.findSome? (fun t =>
    if mkChordName r t == name then
      some { empty := false, tonic := pcName r, type := t.typeTag, quality := "" }
    else none)) with
  | some info => info
  | none => { empty := true, tonic := "", type := "", quality := "" }

def tonalMatcher : Matcher := { detect := chordDetect, get := chordGet }

/-! ## Claim-side and amended quality rules (for C5)

`claimQuality` is written from the claim's words, to be compared with the
source-translated `getChordQuality`: substring rules applied in order to the
tag as given — `maj` → Major; else `min` or the tag `m` → Minor; else `dim`
→ Diminished; else `aug` → Augmented; else `dom` or `7` → Dominant; every
other tag → Other.

`amendedQuality` is the amended claim: the same ordered rules applied to the
lowercased tag, with a tag that is empty yielding Major. -/

def claimQuality (tag : String) : Quality :=
  if strIncludes tag "maj" then .major
  else if strIncludes tag "min" || tag == "m" then .minor
  else if strIncludes tag "dim" then .diminished
  else if strIncludes tag "aug" then .augmented
  else if strIncludes tag "dom" || strIncludes tag "7" then .dominant
  else .other

def amendedQuality (tag : String) : Quality :=
  let t := strLower tag
  if strIncludes t "maj" || t == "" then .major
  else if strIncludes t "min" || t == "m" then .minor
  else if strIncludes t "dim" then .diminished
  else if strIncludes t "aug" then .augmented
  else if strIncludes t "dom" || strIncludes t "7" then .dominant
  else .other

/-! ## Map lemmas -/

lemma mapSet_of_any (m : List (ℕ × Option ℕ)) (k : ℕ) (v : Option ℕ)
    (h : m.any (fun p => p.1 == k) = true) :
    mapSet m k v = m.map (fun p => if p.1 == k then (k, v) else p) := by
  simp only [mapSet, h, if_true]

lemma any_of_mapGet_some (m : List (ℕ × Option ℕ)) (k : ℕ) (o : Option ℕ)
    (h : mapGet m k = some o) : m.any (fun p => p.1 == k) = true := by
  simp only [mapGet, Option.map_eq_some'] at h
  obtain ⟨p, hp, -⟩ := h
  have hpred := List.find?_some hp
  exact List.any_eq_true.mpr ⟨p, List.mem_of_find?_eq_some hp, hpred⟩

/-! ## C1: instrument-switch race -/

/-- C1: the claim demands last-request-wins: after `setInstrument(A)` then
`setInstrument(B)` issued before A's load resolves, the active backend must be
B's regardless of resolution order, the stale load being discarded.  The code
keeps no generation counter, so when A's load resolves after B's, A's backend
is installed.  This theorem runs that schedule: `setInstrument('electric-piano')`
(= A), `setInstrument('strings')` (= B), B's load resolves, then A's load
resolves; afterwards both loads are complete (`pendingLoads = []`,
`isLoading = false`) yet the installed backend and reported id belong to A,
not B — the stale result was installed, contradicting the claim. -/
theorem C1_stale_load_installed :
    (run enabledState [.setInstr "electric-piano", .setInstr "strings",
        .resolveLoad 1, .resolveLoad 0]).instrument
      = some (loadSampledInstrument "electric-piano") ∧
    loadSampledInstrument "electric-piano" ≠ loadSampledInstrument "strings" ∧
    (run enabledState [.setInstr "electric-piano", .setInstr "strings",
        .resolveLoad 1, .resolveLoad 0]).currentInstrumentId = "electric-piano" ∧
    (run enabledState [.setInstr "electric-piano", .setInstr "strings",
        .resolveLoad 1, .resolveLoad 0]).pendingLoads = [] ∧
    (run enabledState [.setInstr "electric-piano", .setInstr "strings",
        .resolveLoad 1, .resolveLoad 0]).isLoading = false := by
  decide

/-! ## C2: volume mapping -/

/-- C2 counterexample: the claim says `setVolume(100)` yields `0` dB (linear
onto `[-60, 0]`).  The code computes `-60 + (100/100)*54 = -6` dB: calling
`setVolume 100` on a freshly created organ synth leaves the backend at `-6`
dB, not `0` dB. -/
theorem C2_counterexample :
    volumeToDb 100 = some (-6) ∧ volumeToDb 100 ≠ some 0 ∧
    synthVolumeDb (setVolumeFn (run enabledState [.setInstr "organ"]) 100)
      = some (volumeToDb 100) := by
  refine ⟨?_, ?_, rfl⟩ <;> norm_num [volumeToDb]

/-- C2 amended: `setVolume 0` yields `-Infinity` dB (silence) on a synthesized
backend, and `setVolume v` for `0 < v ≤ 100` maps linearly onto `(-60, -6]`
via `-60 + 54·(v/100)`; in particular `setVolume 100` yields `-6` dB, not
`0` dB. -/
theorem C2_volume_mapping_amended :
    ∀ v : ℚ, volumeToDb 0 = none ∧ volumeToDb 100 = some (-6) ∧
      (0 < v → v ≤ 100 →
        ∃ d, volumeToDb v = some d ∧ d = -60 + 54 * (v / 100) ∧ -60 < d ∧ d ≤ -6) ∧
      (∀ (s : AudioState) osc a dc su re db,
        s.instrument = some (.synth osc a dc su re db) →
        (setVolumeFn s v).instrument = some (.synth osc a dc su re (volumeToDb v))) := by
  intro v
  refine ⟨by simp [volumeToDb], by norm_num [volumeToDb], fun h1 h2 => ?_,
    fun s osc a dc su re db h => ?_⟩
  · refine ⟨-60 + v / 100 * 54, ?_, by ring, by nlinarith, by nlinarith⟩
    simp only [volumeToDb, if_neg h1.ne']
  · simp only [setVolumeFn, h]

/-- Witness for C2's amended theorem at `v = 50`. -/
theorem C2_witness :
    ∃ d, volumeToDb 50 = some d ∧ d = -60 + 54 * ((50 : ℚ) / 100) ∧ -60 < d ∧ d ≤ -6 :=
  (C2_volume_mapping_amended 50).2.2.1 (by norm_num) (by norm_num)

/-! ## C6: repeated noteOn -/

/-- C6 counterexample: the claim says a repeated `noteOn` never leaves two
live voices for the same note of which only one is releasable.  On the
default sampled backend, playing note 60 twice starts two voices (ids 0 and
1), both still live, while the stop-handle map holds only the newer handle
`some 1` — voice 0's stop handle was overwritten without being invoked, so
only one of the two live voices remains releasable. -/
theorem C6_counterexample :
    ((run enabledState [.play 60 100, .play 60 100]).voices.map
        (fun (w : Voice) => (w.id, w.note, w.live))) = [(0, 60, true), (1, 60, true)] ∧
    (run enabledState [.play 60 100, .play 60 100]).activeNotes = [(60, some 1)] :=
  ⟨rfl, rfl⟩

/-- C6 amended: a repeated `noteOn` for an active note is idempotent on the
registry (`Set.add` leaves it unchanged) and leaves no duplicate entry in the
voice-handle map (the entry for the note is overwritten in place, the map
does not grow); but on a sampled backend the prior voice's stop handle is
discarded without being invoked — the prior voices are untouched (still
live) and a fresh live voice is appended, so only the newest voice for the
note remains releasable (last-writer-wins, spec §4.4). -/
theorem C6_note_on_amended :
    ∀ (reg : List ℕ) (n : ℕ), n ∈ reg →
      regAdd reg n = reg ∧
      (∀ (s : AudioState) (v : ℚ) (imp : String) (vid : ℕ),
        s.instrument = some (.sampled imp) →
        mapGet s.activeNotes n = some (some vid) →
        ∃ w : Voice, (playNoteFn s n v).voices = s.voices ++ [w] ∧
          w.live = true ∧ w.note = n ∧
          (∀ p ∈ (playNoteFn s n v).activeNotes, p.1 = n → p.2 = some s.nextVoice) ∧
          (playNoteFn s n v).activeNotes.length = s.activeNotes.length) := by
  intro reg n hmem
  refine ⟨by simp [regAdd, hmem], ?_⟩
  intro s v imp vid hinst hget
  have hany := any_of_mapGet_some _ _ _ hget
  refine ⟨⟨s.nextVoice, n, true, none, some (max 10 (min 127 (jsRound v)))⟩,
    by simp [playNoteFn, hinst], rfl, rfl, ?_, ?_⟩
  · intro p hp hpn
    simp only [playNoteFn, hinst] at hp
    rw [mapSet_of_any _ _ _ hany] at hp
    obtain ⟨q, hq, hfq⟩ := List.mem_map.mp hp
    by_cases hqk : (q.1 == n) = true
    · rw [if_pos hqk] at hfq
      rw [← hfq]
    · rw [if_neg hqk] at hfq
      subst hfq
      exact absurd (beq_iff_eq.mpr hpn) hqk
  · simp [playNoteFn, hinst, mapSet_of_any _ _ _ hany]

/-- Witness for C6's amended theorem: the state after one `playNote 60` on
the sampled grand piano (map entry `(60, some 0)`), played again. -/
theorem C6_witness :
    regAdd [60] 60 = [60] ∧
    (∃ w : Voice,
      (playNoteFn (run enabledState [.play 60 100]) 60 100).voices
        = (run enabledState [.play 60 100]).voices ++ [w] ∧
      w.live = true ∧ w.note = 60 ∧
      (∀ p ∈ (playNoteFn (run enabledState [.play 60 100]) 60 100).activeNotes,
        p.1 = 60 → p.2 = some (run enabledState [.play 60 100]).nextVoice) ∧
      (playNoteFn (run enabledState [.play 60 100]) 60 100).activeNotes.length
        = (run enabledState [.play 60 100]).activeNotes.length) :=
  have h := C6_note_on_amended [60] 60 (by simp)
  ⟨h.1, h.2 (run enabledState [.play 60 100]) 100 "SplendidGrandPiano" 0 rfl rfl⟩

/-! ## C7: velocity mapping in playNote -/

/-- C7: for a velocity `v` in 0-127, `playNote` sends gain
`max(0.1, v/127)` to a synthesized backend (so `0 ↦ 0.1`, `127 ↦ 1`) and
velocity `max(10, min(127, round(v)))` — `v` clamped to `[10,127]` — to a
sampled backend (so `0 ↦ 10`, `127 ↦ 127`). -/
theorem C7_velocity_mapping :
    ∀ (s : AudioState) (n : ℕ) (v : ℚ), 0 ≤ v → v ≤ 127 →
      (∀ osc a dc su re db, s.instrument = some (.synth osc a dc su re db) →
        ∃ w : Voice, (playNoteFn s n v).voices = s.voices ++ [w] ∧
          w.sentGain = some (max (1/10) (v / 127)) ∧
          (v = 0 → w.sentGain = some (1/10)) ∧ (v = 127 → w.sentGain = some 1)) ∧
      (∀ imp, s.instrument = some (.sampled imp) →
        ∃ w : Voice, (playNoteFn s n v).voices = s.voices ++ [w] ∧
          w.sentVelocity = some (max 10 (min 127 (jsRound v))) ∧
          (∀ d, w.sentVelocity = some d → 10 ≤ d ∧ d ≤ 127) ∧
          (v = 0 → w.sentVelocity = some 10) ∧ (v = 127 → w.sentVelocity = some 127)) := by
  intro s n v h0 h127
  constructor
  · intro osc a dc su re db hinst
    refine ⟨⟨s.nextVoice, n, true, some (max (1/10) (v / 127)), none⟩,
      by simp [playNoteFn, hinst], rfl, ?_, ?_⟩
    · rintro rfl
      norm_num
    · rintro rfl
      norm_num
  · intro imp hinst
    refine ⟨⟨s.nextVoice, n, true, none, some (max 10 (min 127 (jsRound v)))⟩,
      by simp [playNoteFn, hinst], rfl, ?_, ?_, ?_⟩
    · intro d hd
      obtain rfl : max 10 (min 127 (jsRound v)) = d := Option.some.inj hd
      exact ⟨le_max_left _ _, max_le (by norm_num) (min_le_left _ _)⟩
    · rintro rfl
      have hjs : jsRound 0 = 0 := by
        rw [jsRound, Int.floor_eq_iff]
        norm_num
      rw [hjs]
      norm_num
    · rintro rfl
      have hjs : jsRound 127 = 127 := by
        rw [jsRound, Int.floor_eq_iff]
        norm_num
      rw [hjs]
      norm_num

/-- Witness for C7 on the enabled state (sampled grand piano) and on an
organ synth, at velocity 64. -/
theorem C7_witness :
    ∃ w : Voice, (playNoteFn enabledState 60 64).voices = enabledState.voices ++ [w] ∧
      w.sentVelocity = some (max 10 (min 127 (jsRound 64))) ∧
      (∀ d, w.sentVelocity = some d → 10 ≤ d ∧ d ≤ 127) ∧
      ((64 : ℚ) = 0 → w.sentVelocity = some 10) ∧ ((64 : ℚ) = 127 → w.sentVelocity = some 127) :=
  (C7_velocity_mapping enabledState 60 64 (by norm_num) (by norm_num)).2
    "SplendidGrandPiano" rfl

/-! ## C8: behavior during an instrument swap -/

/-- C8 counterexample: the claim says that while the new backend loads,
`isLoading` is true and incoming note events are silently dropped.  Start
from an organ synth and call `setInstrument('grand-piano')`: while the
sampled load is pending (`isLoading = true`, one pending load), a `noteOn`
is not dropped — it is played on the still-installed outgoing organ synth
(one live voice with a synthesized gain appears). -/
theorem C8_counterexample :
    (run enabledState [.setInstr "organ", .setInstr "grand-piano"]).isLoading = true ∧
    (run enabledState [.setInstr "organ", .setInstr "grand-piano"]).instrument
      = some (createSynth "organ") ∧
    ((run enabledState [.setInstr "organ", .setInstr "grand-piano"]).pendingLoads.map
        Prod.snd) = ["grand-piano"] ∧
    ((step (run enabledState [.setInstr "organ", .setInstr "grand-piano"])
        (.play 60 100)).voices.map
        (fun (w : Voice) => (w.note, w.live, w.sentGain.isSome))) = [(60, true, true)] :=
  ⟨rfl, rfl, rfl, rfl⟩

/-- C8 amended: `setInstrument` sets `isLoading` before the load and releases
the outgoing voices only when the outgoing backend exposes `releaseAll`
(the synthesized backends); a sampled outgoing backend's voices are left
untouched.  While the sampled load is in flight the outgoing backend remains
installed and incoming note events are played on it, not dropped; note
events are dropped only when no backend is installed at all. -/
theorem C8_swap_amended :
    ∀ (s : AudioState) (id : String), s.hasContext = true →
      (getInstrument id).type = "sampled" →
      (setInstrumentStart s id).isLoading = true ∧
      (setInstrumentStart s id).instrument = s.instrument ∧
      (∀ imp, s.instrument = some (.sampled imp) → (setInstrumentStart s id).voices = s.voices) ∧
      (∀ osc a dc su re db, s.instrument = some (.synth osc a dc su re db) →
        (setInstrumentStart s id).voices = releaseAllSynth s.voices) ∧
      (∀ (n : ℕ) (v : ℚ), s.instrument = none → playNoteFn s n v = s) ∧
      (∀ (n : ℕ) (v : ℚ) (b : Backend), s.instrument = some b →
        (playNoteFn s n v).voices.length = s.voices.length + 1) := by
  intro s id hctx htype
  have htyb : ((getInstrument id).type == "sampled") = true := by simp [htype]
  have hnot : (!s.hasContext) = false := by simp [hctx]
  refine ⟨?_, ?_, fun imp hinst => ?_, fun osc a dc su re db hinst => ?_,
    fun n v hinst => ?_, fun n v b hinst => ?_⟩
  · rcases hinst : s.instrument with _ | b
    · simp [setInstrumentStart, hnot, htyb, hinst]
    · cases b <;> simp [setInstrumentStart, hnot, htyb, hinst]
  · rcases hinst : s.instrument with _ | b
    · simp [setInstrumentStart, hnot, htyb, hinst]
    · cases b <;> simp [setInstrumentStart, hnot, htyb, hinst]
  · simp [setInstrumentStart, hnot, htyb, hinst]
  · simp [setInstrumentStart, hnot, htyb, hinst]
  · simp [playNoteFn, hinst]
  · cases b <;> simp [playNoteFn, hinst]

/-- Witness for C8's amended theorem: organ synth installed, switching to the
sampled grand piano. -/
theorem C8_witness :
    (setInstrumentStart (run enabledState [.setInstr "organ"]) "grand-piano").isLoading = true ∧
    (setInstrumentStart (run enabledState [.setInstr "organ"]) "grand-piano").instrument
      = (run enabledState [.setInstr "organ"]).instrument ∧
    (∀ imp, (run enabledState [.setInstr "organ"]).instrument = some (.sampled imp) →
      (setInstrumentStart (run enabledState [.setInstr "organ"]) "grand-piano").voices
        = (run enabledState [.setInstr "organ"]).voices) ∧
    (∀ osc a dc su re db,
      (run enabledState [.setInstr "organ"]).instrument = some (.synth osc a dc su re db) →
      (setInstrumentStart (run enabledState [.setInstr "organ"]) "grand-piano").voices
        = releaseAllSynth (run enabledState [.setInstr "organ"]).voices) ∧
    (∀ (n : ℕ) (v : ℚ), (run enabledState [.setInstr "organ"]).instrument = none →
      playNoteFn (run enabledState [.setInstr "organ"]) n v
        = run enabledState [.setInstr "organ"]) ∧
    (∀ (n : ℕ) (v : ℚ) (b : Backend),
      (run enabledState [.setInstr "organ"]).instrument = some b →
      (playNoteFn (run enabledState [.setInstr "organ"]) n v).voices.length
        = (run enabledState [.setInstr "organ"]).voices.length + 1) :=
  C8_swap_amended (run enabledState [.setInstr "organ"]) "grand-piano" rfl rfl

/-! ## C9: synthesized fallback on enable -/

/-- C9: when loading the default sampled backend fails during `enable()`,
the system enables audio anyway with the `createSynth('organ')` synthesized
backend installed and reports `currentInstrumentId = "organ"`, making the
fallback observable. -/
theorem C9_enable_fallback :
    ∀ s : AudioState, s.isEnabled = false →
      (enableRun s true false).isEnabled = true ∧
      (enableRun s true false).instrument = some (createSynth "organ") ∧
      (∃ osc a dc su re db, createSynth "organ" = Backend.synth osc a dc su re db) ∧
      (enableRun s true false).currentInstrumentId = "organ" := by
  intro s h
  refine ⟨?_, ?_, ⟨_, _, _, _, _, _, rfl⟩, ?_⟩ <;> simp [enableRun, h]

/-- Witness for C9, starting from the initial state. -/
theorem C9_witness :
    (enableRun initState true false).isEnabled = true ∧
    (enableRun initState true false).instrument = some (createSynth "organ") ∧
    (∃ osc a dc su re db, createSynth "organ" = Backend.synth osc a dc su re db) ∧
    (enableRun initState true false).currentInstrumentId = "organ" :=
  C9_enable_fallback initState rfl

/-! ## C10: unknown instrument ids -/

/-- C10: for an id absent from the catalog, `getInstrument` returns the
first catalog entry (the grand-piano descriptor) instead of failing; so
`setInstrument` with an unknown id takes the sampled branch, the load
constructs the default `SplendidGrandPiano` (the switch's `default` arm),
and `currentInstrumentId` records the unknown id — the reported id and
installed backend disagree. -/
theorem C10_unknown_instrument :
    ∀ (id : String) (s : AudioState),
      instruments.find? (fun i => i.id == id) = none →
      s.hasContext = true → s.pendingLoads = [] →
      getInstrument id = { id := "grand-piano", name := "Grand Piano",
                           type := "sampled", icon := "🎹" } ∧
      (run s [.setInstr id, .resolveLoad s.nextToken]).instrument
        = some (loadSampledInstrument "grand-piano") ∧
      (run s [.setInstr id, .resolveLoad s.nextToken]).currentInstrumentId = id ∧
      id ≠ "grand-piano" := by
  intro id s hfind hctx hpend
  have hall := List.find?_eq_none.mp hfind
  have h1 : id ≠ "grand-piano" := by
    have hx := hall { id := "grand-piano", name := "Grand Piano",
                      type := "sampled", icon := "🎹" } (by simp [instruments])
    simp only [beq_iff_eq] at hx
    exact fun he => hx he.symm
  have h2 : id ≠ "electric-piano" := by
    have hx := hall { id := "electric-piano", name := "Electric Piano",
                      type := "sampled", icon := "🎸" } (by simp [instruments])
    simp only [beq_iff_eq] at hx
    exact fun he => hx he.symm
  have h3 : id ≠ "strings" := by
    have hx := hall { id := "strings", name := "Strings",
                      type := "sampled", icon := "🎻" } (by simp [instruments])
    simp only [beq_iff_eq] at hx
    exact fun he => hx he.symm
  have hget : getInstrument id = { id := "grand-piano", name := "Grand Piano",
                                   type := "sampled", icon := "🎹" } := by
    unfold getInstrument
    rw [hfind]
    rfl
  have hload : loadSampledInstrument id = Backend.sampled "SplendidGrandPiano" := by
    simp [loadSampledInstrument, beq_eq_false_iff_ne.mpr h1,
      beq_eq_false_iff_ne.mpr h2, beq_eq_false_iff_ne.mpr h3]
  have htyb : ((getInstrument id).type == "sampled") = true := by
    rw [hget]
    rfl
  have hnot : (!s.hasContext) = false := by simp [hctx]
  have hmain : (run s [.setInstr id, .resolveLoad s.nextToken]).instrument
        = some (loadSampledInstrument id) ∧
      (run s [.setInstr id, .resolveLoad s.nextToken]).currentInstrumentId = id := by
    rcases hinst : s.instrument with _ | b
    · simp [run, step, setInstrumentStart, resolveLoadFn, hnot, htyb, hinst, hpend]
    · cases b <;>
        simp [run, step, setInstrumentStart, resolveLoadFn, hnot, htyb, hinst, hpend]
  refine ⟨hget, ?_, hmain.2, h1⟩
  rw [hmain.1, hload]
  rfl

/-- Witness for C10 at the unknown id `"harp"` from the enabled state. -/
theorem C10_witness :
    getInstrument "harp" = { id := "grand-piano", name := "Grand Piano",
                             type := "sampled", icon := "🎹" } ∧
    (run enabledState [.setInstr "harp", .resolveLoad enabledState.nextToken]).instrument
      = some (loadSampledInstrument "grand-piano") ∧
    (run enabledState [.setInstr "harp",
        .resolveLoad enabledState.nextToken]).currentInstrumentId = "harp" ∧
    "harp" ≠ "grand-piano" :=
  C10_unknown_instrument "harp" enabledState (by decide) rfl rfl

/-! ## Sorting and note-name lemmas -/

lemma insertAsc_length (n : ℕ) : ∀ l : List ℕ, (insertAsc n l).length = l.length + 1 := by
  intro l
  induction l with
  | nil => rfl
  | cons m ms ih =>
    simp only [insertAsc]
    split
    · simp
    · simp [ih]

lemma sortAsc_length (l : List ℕ) : (sortAsc l).length = l.length := by
  induction l with
  | nil => rfl
  | cons m ms ih =>
    show (insertAsc m (sortAsc ms)).length = ms.length + 1
    rw [insertAsc_length, ih]

lemma mem_insertAsc {a n : ℕ} : ∀ {l : List ℕ}, a ∈ insertAsc n l ↔ a = n ∨ a ∈ l := by
  intro l
  induction l with
  | nil => simp [insertAsc]
  | cons m ms ih =>
    simp only [insertAsc]
    split
    · simp [List.mem_cons]
    · simp [List.mem_cons, ih]
      tauto

lemma mem_sortAsc {a : ℕ} : ∀ {l : List ℕ}, a ∈ sortAsc l ↔ a ∈ l := by
  intro l
  induction l with
  | nil => simp [sortAsc]
  | cons m ms ih =>
    show a ∈ insertAsc m (sortAsc ms) ↔ _
    rw [mem_insertAsc, ih]
    simp [List.mem_cons]

lemma roundtrip128 : ∀ m : ℕ, m < 128 → nameToPc (midiToNote m) = m % 12 := by decide

lemma pcName_one_le : ∀ k : ℕ, k < 12 → 1 ≤ (pcName k).length := by decide

lemma fallback_roundtrip : ∀ k : ℕ, k < 12 →
    nameToPc (pitchClassName (orStr (midiToNote k) "C")) = k := by decide

lemma transposedPcs_three_le :
    ∀ r : ℕ, r < 12 → ∀ t ∈ templates, 3 ≤ (transposedPcs r t).length := by decide

lemma midiToNote_ne (m : ℕ) : midiToNote m ≠ "" := by
  intro he
  have h12 : m % 12 < 12 := Nat.mod_lt _ (by norm_num)
  have h1 := pcName_one_le (m % 12) h12
  have hlen := congrArg String.length he
  rw [midiToNote, String.length_append] at hlen
  simp at hlen
  omega

lemma octNames_eq (l : List ℕ) : octNames l = l.map midiToNote := by
  rw [octNames]
  apply List.filter_eq_self.mpr
  intro s hs
  obtain ⟨m, hm, rfl⟩ := List.mem_map.mp hs
  simp [midiToNote_ne m]

lemma octNames_length (l : List ℕ) : (octNames l).length = l.length := by
  rw [octNames_eq, List.length_map]

lemma map_nameToPc_octNames (l : List ℕ) (h : ∀ m ∈ l, m < 128) :
    (octNames l).map nameToPc = l.map (fun m => m % 12) := by
  rw [octNames_eq, List.map_map]
  apply List.map_congr_left
  intro m hm
  exact roundtrip128 m (h m hm)

lemma mem_getPitchClasses_lt {l : List ℕ} {pc : ℕ} (h : pc ∈ getPitchClasses l) : pc < 12 := by
  rw [getPitchClasses, mem_sortAsc, List.mem_dedup] at h
  obtain ⟨m, -, rfl⟩ := List.mem_map.mp h
  exact Nat.mod_lt _ (by norm_num)

lemma map_nameToPc_fallback (l : List ℕ) :
    (fallbackNames l).map nameToPc = getPitchClasses l := by
  rw [fallbackNames, List.map_map]
  conv_rhs => rw [← List.map_id (getPitchClasses l)]
  apply List.map_congr_left
  intro pc hpc
  exact fallback_roundtrip pc (mem_getPitchClasses_lt hpc)

/-! ## Matcher lemmas -/

lemma chordDetect_mem {names : List String} {c : String} (h : c ∈ chordDetect names) :
    ∃ r t, r < 12 ∧ t ∈ templates ∧ pcsOfNames names = transposedPcs r t ∧
      c = mkChordName r t := by
  simp only [chordDetect, List.mem_flatMap, List.mem_filterMap, List.mem_range] at h
  obtain ⟨r, hr, t, ht, hft⟩ := h
  by_cases hc : pcsOfNames names = transposedPcs r t
  · rw [if_pos hc] at hft
    exact ⟨r, t, hr, ht, hc, (Option.some.inj hft).symm⟩
  · rw [if_neg hc] at hft
    exact absurd hft (by simp)

lemma chordDetect_cons_card {names : List String} {c : String} {rest : List String}
    (h : chordDetect names = c :: rest) : 3 ≤ (pcsOfNames names).length := by
  have hc : c ∈ chordDetect names := by
    rw [h]
    exact List.mem_cons_self _ _
  obtain ⟨r, t, hr, ht, hpcs, -⟩ := chordDetect_mem hc
  rw [hpcs]
  exact transposedPcs_three_le r hr t ht

lemma chordDetect_eq_nil {names : List String} (h : (pcsOfNames names).length < 3) :
    chordDetect names = [] := by
  rcases hd : chordDetect names with _ | ⟨c, rest⟩
  · rfl
  · exact absurd (chordDetect_cons_card hd) (by omega)

lemma pcsOfNames_oct_eq (l : List ℕ) (h : ∀ m ∈ l, m < 128) :
    (pcsOfNames (octNames l)).length = (l.map (fun m => m % 12)).dedup.length := by
  rw [pcsOfNames, map_nameToPc_octNames l h, sortAsc_length]

lemma pcsOfNames_fallback_le (l : List ℕ) :
    (pcsOfNames (fallbackNames l)).length ≤ (l.map (fun m => m % 12)).dedup.length := by
  rw [pcsOfNames, map_nameToPc_fallback, sortAsc_length]
  calc (getPitchClasses l).dedup.length
      ≤ (getPitchClasses l).length := (List.dedup_sublist _).length_le
    _ = (l.map (fun m => m % 12)).dedup.length := by rw [getPitchClasses, sortAsc_length]

lemma dedup_map_length_le (f : ℕ → ℕ) (l : List ℕ) :
    (l.map f).dedup.length ≤ l.dedup.length := by
  induction l with
  | nil => simp
  | cons a l ih =>
    by_cases ha : a ∈ l
    · rw [List.map_cons, List.dedup_cons_of_mem (List.mem_map_of_mem f ha),
        List.dedup_cons_of_mem ha]
      exact ih
    · rw [List.dedup_cons_of_not_mem ha]
      by_cases hfa : f a ∈ l.map f
      · rw [List.map_cons, List.dedup_cons_of_mem hfa]
        simp only [List.length_cons]
        omega
      · rw [List.map_cons, List.dedup_cons_of_not_mem hfa]
        simp only [List.length_cons]
        omega

lemma distinct_pcs_le (l : List ℕ) :
    (l.map (fun m => m % 12)).dedup.length ≤ l.dedup.length :=
  dedup_map_length_le _ l

/-! ## C3: detection needs at least two notes -/

/-- C3: with fewer than 2 distinct active notes (empty set or a single
note included) `detectChord` returns none, and a chord candidate is produced
only when at least 2 distinct pitch classes are active and at least one
matcher template matched (one of the two `detect` calls returned a
candidate). -/
theorem C3_two_note_guard :
    ∀ l : List ℕ, (∀ m ∈ l, m < 128) →
      (l.dedup.length < 2 → detectChord tonalMatcher l = none) ∧
      (∀ c, detectChord tonalMatcher l = some c →
        2 ≤ (l.map (fun m => m % 12)).dedup.length ∧
        (tonalMatcher.detect (octNames l) ≠ [] ∨
         tonalMatcher.detect (fallbackNames l) ≠ [])) := by
  intro l h128
  constructor
  · intro hdist
    by_cases hlen : l.length < 2
    · simp [detectChord, hlen]
    · have hpcs : (l.map (fun m => m % 12)).dedup.length < 2 :=
        lt_of_le_of_lt (distinct_pcs_le l) hdist
      have hA : chordDetect (octNames l) = [] :=
        chordDetect_eq_nil (by rw [pcsOfNames_oct_eq l h128]; omega)
      have hB : chordDetect (fallbackNames l) = [] :=
        chordDetect_eq_nil (lt_of_le_of_lt (pcsOfNames_fallback_le l) (by omega))
      simp [detectChord, hlen, octNames_length, tonalMatcher, hA, hB]
  · intro c hc
    by_cases hlen : l.length < 2
    · simp [detectChord, hlen] at hc
    · rcases hdA : chordDetect (octNames l) with _ | ⟨c1, r1⟩
      · rcases hdB : chordDetect (fallbackNames l) with _ | ⟨c2, r2⟩
        · simp [detectChord, hlen, octNames_length, tonalMatcher, hdA, hdB] at hc
        · refine ⟨?_, Or.inr ?_⟩
          · have h3 := chordDetect_cons_card hdB
            have h4 := pcsOfNames_fallback_le l
            omega
          · show chordDetect (fallbackNames l) ≠ []
            rw [hdB]
            simp
      · refine ⟨?_, Or.inl ?_⟩
        · have h3 := chordDetect_cons_card hdA
          rw [pcsOfNames_oct_eq l h128] at h3
          omega
        · show chordDetect (octNames l) ≠ []
          rw [hdA]
          simp

/-- Witness for C3: a single note yields no chord. -/
theorem C3_witness :
    ([60] : List ℕ).dedup.length < 2 ∧ detectChord tonalMatcher [60] = none :=
  ⟨by decide, (C3_two_note_guard [60] (by decide)).1 (by decide)⟩

/-! ## C4: two-attempt detection pipeline -/

/-- C4: with at least 2 active notes, `detectChord` first runs the
octave-aware names through the matcher; a first candidate `c` is returned
with its resolved root (`tonic`, falling back to the bass note) and type.
If that attempt yields nothing it retries with the pitch-class-only names
(octave stripped, duplicates removed) and returns that attempt's first
candidate; if both attempts fail it returns none.  The matcher is abstract;
the hypotheses state that `get` resolves a detected candidate (tonal's
`Chord.get` of a `Chord.detect` result is never empty). -/
theorem C4_detection_pipeline :
    ∀ (M : Matcher) (l : List ℕ), 2 ≤ l.length →
      (∀ c rest, M.detect (octNames l) = c :: rest → (M.get c).empty = false) →
      (∀ c rest, M.detect (fallbackNames l) = c :: rest → (M.get c).empty = false) →
      (∀ c rest, M.detect (octNames l) = c :: rest →
        detectChord M l =
          some { name := c, symbol := c,
                 root := orStr (M.get c).tonic (bassNoteOf l),
                 type := (M.get c).type,
                 notes := (octNames l).map (fun nn => orStr (pitchClassName nn) nn),
                 quality := getChordQuality (orStr (M.get c).quality (M.get c).type) }) ∧
      (M.detect (octNames l) = [] → ∀ c rest, M.detect (fallbackNames l) = c :: rest →
        detectChord M l =
          some { name := c, symbol := c,
                 root := orStr (M.get c).tonic "",
                 type := (M.get c).type,
                 notes := (octNames l).map (fun nn => orStr (pitchClassName nn) nn),
                 quality := getChordQuality (orStr (M.get c).quality (M.get c).type) }) ∧
      (M.detect (octNames l) = [] → M.detect (fallbackNames l) = [] →
        detectChord M l = none) := by
  intro M l h2 hg1 hg2
  have hlen : ¬ (l.length < 2) := by omega
  have hlen2 : ¬ ((octNames l).length < 2) := by rw [octNames_length]; omega
  refine ⟨fun c rest hd => ?_, fun hdA c rest hdB => ?_, fun hdA hdB => ?_⟩
  · have hemp := hg1 c rest hd
    simp [detectChord, hlen, hlen2, hd, hemp]
  · have hemp := hg2 c rest hdB
    simp [detectChord, hlen, hlen2, hdA, hdB, hemp]
  · simp [detectChord, hlen, hlen2, hdA, hdB]

/-- Witness for C4 on the C major triad `{C4, E4, G4}` with the modelled
matcher: the octave-aware attempt succeeds with candidate `"C"`. -/
theorem C4_witness :
    tonalMatcher.detect (octNames [60, 64, 67]) = ["C"] ∧
    detectChord tonalMatcher [60, 64, 67] =
      some { name := "C", symbol := "C",
             root := orStr (tonalMatcher.get "C").tonic (bassNoteOf [60, 64, 67]),
             type := (tonalMatcher.get "C").type,
             notes := (octNames [60, 64, 67]).map (fun nn => orStr (pitchClassName nn) nn),
             quality := getChordQuality
               (orStr (tonalMatcher.get "C").quality (tonalMatcher.get "C").type) } := by
  have hd : tonalMatcher.detect (octNames [60, 64, 67]) = ["C"] := by decide
  have hg1 : ∀ c rest, tonalMatcher.detect (octNames [60, 64, 67]) = c :: rest →
      (tonalMatcher.get c).empty = false := by
    intro c rest h
    rw [hd] at h
    injection h with h1 h2
    subst h1
    decide
  have hg2 : ∀ c rest, tonalMatcher.detect (fallbackNames [60, 64, 67]) = c :: rest →
      (tonalMatcher.get c).empty = false := by
    intro c rest h
    have hdB : tonalMatcher.detect (fallbackNames [60, 64, 67]) = ["C"] := by decide
    rw [hdB] at h
    injection h with h1 h2
    subst h1
    decide
  exact ⟨hd, (C4_detection_pipeline tonalMatcher [60, 64, 67] (by decide) hg1 hg2).1 "C" [] hd⟩

/-! ## C5: quality classification rules -/

/-- C5 counterexample: the claim's rules send every tag matching none of
the substrings to Other, but the source maps the empty chord-type tag to
Major (`t === ''` in the first branch), so `getChordQuality ""` is Major
while the claim's rules give Other. -/
theorem C5_counterexample :
    getChordQuality "" = Quality.major ∧ claimQuality "" = Quality.other ∧
    getChordQuality "" ≠ claimQuality "" := by
  decide

lemma charLower_ne_M (c : Char) : charLower c ≠ 'M' := by
  rw [charLower]
  split
  · rename_i h
    obtain ⟨h1, h2⟩ := h
    set k := c.toNat with hk
    interval_cases k <;> decide
  · rename_i h
    intro he
    apply h
    rw [he]
    decide

lemma strLower_ne_M (s : String) : strLower s ≠ "M" := by
  intro he
  have hd : (strLower s).data = "M".data := congrArg String.data he
  rw [show (strLower s).data = s.data.map charLower from rfl,
    show ("M" : String).data = ['M'] from rfl] at hd
  have hmem : 'M' ∈ s.data.map charLower := by
    rw [hd]
    exact List.mem_cons_self _ _
  obtain ⟨c, -, hc⟩ := List.mem_map.mp hmem
  exact charLower_ne_M c hc

/-- C5 amended: the substring rules are applied to the lowercased tag, an
empty tag yields Major, and with that the ordered rules of the claim hold
for every tag (the source's `t === 'M'` comparison is unreachable because
the tag was lowercased). -/
theorem C5_quality_rules_amended :
    ∀ tag : String, getChordQuality tag = amendedQuality tag := by
  intro tag
  have hM : (strLower tag == "M") = false := beq_eq_false_iff_ne.mpr (strLower_ne_M tag)
  simp only [getChordQuality, amendedQuality, hM, Bool.or_false]
